import Mathlib

/-!
A shallow embedding of the Evaluation Server core
(src/system/EvaluationServer.py): the job queue, the worker pool, the
dispatcher and the RPC handlers, together with proofs about the behaviour
the specification describes.

Conventions: wall-clock times, priorities and timestamps are natural
numbers; Python exceptions are an explicit error type; every stateful
method returns its result together with the post state, so a raised
exception can leave partial mutations behind exactly as in the source.
-/

namespace CMS

/-- The Python exceptions the embedded code can raise. The blocked marker
stands for a semaphore acquisition that would suspend the calling thread
forever in a sequential execution. -/
inductive PyErr
  | lookupError
  | typeError
  | valueError
  | keyError
  | runtimeError
  | assertionError
  | indexError
  | blocked
  deriving DecidableEq, Repr

/-- Dictionary lookup on an association list (Python dict access; every dict
in the source has unique keys). -/
def alookup {α β : Type} [DecidableEq α] (k : α) : List (α × β) → Option β
  | [] => none
  | kv :: rest => if kv.1 = k then some kv.2 else alookup k rest

/-- Dictionary update of an existing key (Python dict item assignment). -/
def aupdate {α β : Type} [DecidableEq α] (k : α) (f : β → β) : List (α × β) → List (α × β)
  | [] => []
  | kv :: rest => (if kv.1 = k then (kv.1, f kv.2) else kv) :: aupdate k f rest

/-- Dictionary item deletion (Python del statement). -/
def aerase {α β : Type} [DecidableEq α] (k : α) (l : List (α × β)) : List (α × β) :=
  l.filter (fun kv => decide (kv.1 ≠ k))

/-- Document-store write: replace the binding if present, append otherwise
(CouchObject.to_couch on the happy, conflict-free path). -/
def aset {α β : Type} [DecidableEq α] (k : α) (v : β) : List (α × β) → List (α × β)
  | [] => [(k, v)]
  | kv :: rest => if kv.1 = k then (k, v) :: rest else kv :: aset k v rest

/-- Job kinds (EvaluationServer.JOB_TYPE_COMPILATION, JOB_TYPE_EVALUATION,
JOB_TYPE_BOMB). -/
inductive JobType
  | compile
  | evaluate
  | bomb
  deriving DecidableEq, Repr

/-- A job is the couple (job_type, submission); the bomb carries no
submission. Following spec section 3, two jobs are equal exactly when their
kinds and submission ids agree. -/
structure Job where
  jobType : JobType
  sid : Option String
  deriving DecidableEq, Repr

/-- A queue element (priority, timestamp, job). -/
abbrev QEntry : Type := Nat × Nat × Job

def JOB_PRIORITY_EXTRA_HIGH : Nat := 0
def JOB_PRIORITY_HIGH : Nat := 1
def JOB_PRIORITY_MEDIUM : Nat := 2
def JOB_PRIORITY_LOW : Nat := 3
def JOB_PRIORITY_EXTRA_LOW : Nat := 4
def MAX_COMPILATION_TENTATIVES : Nat := 3
def MAX_EVALUATION_TENTATIVES : Nat := 3

/-- The job queue: the heap list and the counting semaphore tracking the
number of items. The heap is represented with its entries sorted by
(priority, timestamp), which realises the one observable heapq guarantee the
code relies on: the minimum sits at index 0. -/
structure JobQueue where
  entries : List QEntry
  semaphore : Nat
  deriving DecidableEq, Repr

def entryKeyLE (a b : QEntry) : Bool :=
  decide (a.1 < b.1 ∨ (a.1 = b.1 ∧ a.2.1 ≤ b.2.1))

/-- Insert keeping the entries sorted by (priority, timestamp); models
heapq.heappush at the granularity of its observable contract. The position
among equal keys is unspecified in the spec. -/
def sortedInsert (e : QEntry) : List QEntry → List QEntry
  | [] => [e]
  | x :: xs => if entryKeyLE x e then x :: sortedInsert e xs else e :: x :: xs

/-- Re-establish the heap order (heapq.heapify). -/
def sortEntries (l : List QEntry) : List QEntry := l.foldr sortedInsert []

/-- JobQueue.push (source lines 61-77). The source defaults a missing
timestamp to the timestamp of the submission carried by the job (or the wall
clock for a bomb); callers of this model pass that resolved value.
Increments the item semaphore. -/
def JobQueue.push (job : Job) (priority : Nat) (timestamp : Nat) (q : JobQueue) : JobQueue :=
  { entries := sortedInsert (priority, timestamp, job) q.entries,
    semaphore := q.semaphore + 1 }

/-- JobQueue.top (source lines 79-89): the first element, or LookupError on
an empty queue. -/
def JobQueue.top (q : JobQueue) : Except PyErr QEntry :=
  match q.entries with
  | [] => Except.error PyErr.lookupError
  | e :: _ => Except.ok e

/-- JobQueue.pop (source lines 91-103): acquire the item semaphore
(blocking), then heappop; an empty heap after the acquisition is the
out-of-sync RuntimeError. -/
def JobQueue.pop (q : JobQueue) : Except PyErr QEntry × JobQueue :=
  if q.semaphore = 0 then (Except.error PyErr.blocked, q)
  else
    match q.entries with
    | [] => (Except.error PyErr.runtimeError, { q with semaphore := q.semaphore - 1 })
    | e :: rest => (Except.ok e, { entries := rest, semaphore := q.semaphore - 1 })

/-- A Python value used as a list subscript in the embedded code: either an
int, or a whole queue entry. JobQueue.search iterates the entries themselves
and then subscripts the entry list with them (source lines 113-116). -/
inductive PyIndexVal
  | int (n : Nat)
  | entry (e : QEntry)
  deriving DecidableEq, Repr

/-- Python list subscription: an int subscript selects the element
(IndexError when out of range); subscripting a list with a tuple such as a
queue entry raises TypeError. -/
def pyListIndex (l : List QEntry) : PyIndexVal → Except PyErr QEntry
  | PyIndexVal.int n =>
      match l[n]? with
      | some e => Except.ok e
      | none => Except.error PyErr.indexError
  | PyIndexVal.entry _ => Except.error PyErr.typeError

/-- Loop body of JobQueue.search (source lines 112-117): for each element i
of the queue, evaluate queue[i] and compare its job component; falling off
the loop raises LookupError. Because the subscript i is an entry, not an
int, the first evaluated subscription raises TypeError. -/
def JobQueue.searchGo (q : List QEntry) (job : Job) : List QEntry → Except PyErr PyIndexVal
  | [] => Except.error PyErr.lookupError
  | i :: rest =>
      match pyListIndex q (PyIndexVal.entry i) with
      | Except.error e => Except.error e
      | Except.ok e =>
          if e.2.2 = job then Except.ok (PyIndexVal.entry i)
          else JobQueue.searchGo q job rest

/-- JobQueue.search (source lines 105-117). -/
def JobQueue.search (job : Job) (q : JobQueue) : Except PyErr PyIndexVal :=
  JobQueue.searchGo q.entries job q.entries

/-- JobQueue.set_priority (source lines 132-141): looks the job up with
search, then evaluates queue[pos][0] == priority, a comparison rather than
an assignment, and re-heapifies. -/
def JobQueue.set_priority (job : Job) (priority : Nat) (q : JobQueue) : Except PyErr Unit × JobQueue :=
  match JobQueue.search job q with
  | Except.error e => (Except.error e, q)
  | Except.ok pos =>
      match pyListIndex q.entries pos with
      | Except.error e => (Except.error e, q)
      | Except.ok e =>
          let _cmp : Bool := e.1 == priority
          (Except.ok (), { q with entries := sortEntries q.entries })

/-- JobQueue.length (source lines 143-148). -/
def JobQueue.length (q : JobQueue) : Nat := q.entries.length

/-- The stored per-worker value: None for inactive, the string disabled, or
the assigned job. -/
inductive WorkerState
  | inactive
  | disabled
  | busy (job : Job)
  deriving DecidableEq, Repr

/-- One worker of the pool. The source keeps six parallel dicts with
identical key sets (workers, start_time, address, error_count, side_data,
schedule_disabling); a single record per key is observationally the same. -/
structure WorkerRec where
  state : WorkerState
  start_time : Option Nat
  address : String × Nat
  error_count : Nat
  side_data : Option (Nat × Nat)
  schedule_disabling : Bool
  deriving DecidableEq, Repr

/-- The worker pool: the per-worker records and the availability semaphore
counting inactive workers. -/
structure WorkerPool where
  workers : List (Nat × WorkerRec)
  semaphore : Nat
  deriving DecidableEq, Repr

/-- First worker whose stored value equals the given one, in dictionary
iteration order (the loop of WorkerPool.find_worker, source lines 245-250).
-/
def findWorker (l : List (Nat × WorkerRec)) (target : WorkerState) : Option Nat :=
  match l with
  | [] => none
  | kv :: rest => if kv.2.state = target then some kv.1 else findWorker rest target

/-- WorkerPool.find_worker (source lines 245-250): LookupError when no
worker holds the value. -/
def WorkerPool.find_worker (target : WorkerState) (p : WorkerPool) : Except PyErr Nat :=
  match findWorker p.workers target with
  | none => Except.error PyErr.lookupError
  | some n => Except.ok n

/-- WorkerPool.acquire_worker (source lines 180-209). Acquires the
availability semaphore (the blocked marker models a blocking acquisition
with no permit available), then assigns the job to the first INACTIVE
worker; finding none while holding a permit is the out-of-sync RuntimeError,
on which path the permit is not returned. -/
def WorkerPool.acquire_worker (job : Job) (blocking : Bool) (side : Option (Nat × Nat)) (now : Nat) (p : WorkerPool) : Except PyErr (Option Nat) × WorkerPool :=
  if p.semaphore = 0 then
    if blocking then (Except.error PyErr.blocked, p) else (Except.ok none, p)
  else
    let p1 : WorkerPool := { p with semaphore := p.semaphore - 1 }
    match findWorker p1.workers WorkerState.inactive with
    | none => (Except.error PyErr.runtimeError, p1)
    | some n =>
        (Except.ok (some n),
         { p1 with workers := aupdate n (fun r =>
             { r with state := WorkerState.busy job,
                      start_time := some now,
                      side_data := side }) p1.workers })

/-- WorkerPool.release_worker (source lines 211-243): ValueError when the
worker is not busy; otherwise clear the lease fields, return the side data,
and go to DISABLED without touching the semaphore when disabling was
scheduled, or to INACTIVE with a semaphore release otherwise. -/
def WorkerPool.release_worker (n : Nat) (p : WorkerPool) : Except PyErr (Option (Nat × Nat)) × WorkerPool :=
  match alookup n p.workers with
  | none => (Except.error PyErr.keyError, p)
  | some r =>
      match r.state with
      | WorkerState.inactive => (Except.error PyErr.valueError, p)
      | WorkerState.disabled => (Except.error PyErr.valueError, p)
      | WorkerState.busy _ =>
          if r.schedule_disabling then
            (Except.ok r.side_data,
             { p with workers := aupdate n (fun r0 =>
                 { r0 with state := WorkerState.disabled,
                           start_time := none,
                           side_data := none,
                           schedule_disabling := false }) p.workers })
          else
            (Except.ok r.side_data,
             { workers := aupdate n (fun r0 =>
                 { r0 with state := WorkerState.inactive,
                           start_time := none,
                           side_data := none }) p.workers,
               semaphore := p.semaphore + 1 })

/-- WorkerPool.disable_worker (source lines 252-267): acquire the
availability semaphore non-blockingly (ValueError when empty), then check
the worker; an unknown worker id raises KeyError on the state lookup with
the permit already consumed and never returned, a non-inactive worker
returns the permit and raises ValueError, and an inactive worker becomes
DISABLED. -/
def WorkerPool.disable_worker (n : Nat) (p : WorkerPool) : Except PyErr Unit × WorkerPool :=
  if p.semaphore = 0 then (Except.error PyErr.valueError, p)
  else
    let p1 : WorkerPool := { p with semaphore := p.semaphore - 1 }
    match alookup n p1.workers with
    | none => (Except.error PyErr.keyError, p1)
    | some r =>
        if r.state = WorkerState.inactive then
          (Except.ok (),
           { p1 with workers := aupdate n (fun r0 =>
               { r0 with state := WorkerState.disabled }) p1.workers })
        else (Except.error PyErr.valueError, { p1 with semaphore := p1.semaphore + 1 })

/-- WorkerPool.enable_worker (source lines 269-282): ValueError on an
unknown or non-disabled worker; otherwise DISABLED to INACTIVE with a
semaphore release. -/
def WorkerPool.enable_worker (n : Nat) (p : WorkerPool) : Except PyErr Unit × WorkerPool :=
  match alookup n p.workers with
  | none => (Except.error PyErr.valueError, p)
  | some r =>
      if r.state = WorkerState.disabled then
        (Except.ok (),
         { workers := aupdate n (fun r0 =>
             { r0 with state := WorkerState.inactive }) p.workers,
           semaphore := p.semaphore + 1 })
      else (Except.error PyErr.valueError, p)

/-- WorkerPool.add_worker (source lines 284-298): ValueError on a duplicate
name; otherwise register a fresh INACTIVE worker and release the
availability semaphore. -/
def WorkerPool.add_worker (n : Nat) (host : String) (port : Nat) (p : WorkerPool) : Except PyErr Unit × WorkerPool :=
  match alookup n p.workers with
  | some _ => (Except.error PyErr.valueError, p)
  | none =>
      (Except.ok (),
       { workers := p.workers ++ [(n,
           { state := WorkerState.inactive,
             start_time := none,
             address := (host, port),
             error_count := 0,
             side_data := none,
             schedule_disabling := false })],
         semaphore := p.semaphore + 1 })

/-- WorkerPool.del_worker (source lines 300-319): ValueError on an unknown
or non-disabled worker; otherwise remove every per-worker entry. The
semaphore is untouched. -/
def WorkerPool.del_worker (n : Nat) (p : WorkerPool) : Except PyErr Unit × WorkerPool :=
  match alookup n p.workers with
  | none => (Except.error PyErr.valueError, p)
  | some r =>
      if r.state = WorkerState.disabled then
        (Except.ok (), { p with workers := aerase n p.workers })
      else (Except.error PyErr.valueError, p)

/-- What a Python for statement iterates in the embedded code: an actual
list, or a bound method object that was never called. Iterating the latter
raises TypeError. -/
inductive PyIterable (α : Type)
  | list (xs : List α)
  | boundMethod

/-- Python iteration over such a value. -/
def pyIter {α : Type} : PyIterable α → Except PyErr (List α)
  | PyIterable.list xs => Except.ok xs
  | PyIterable.boundMethod => Except.error PyErr.typeError

/-- WorkerPool.working_workers (source lines 321-325). The source iterates
self.workers.values, the bound method object itself rather than the result
of calling it, so the iteration raises TypeError before anything is
counted; the filter line below is the count the comprehension would produce
from a materialised value list. -/
def WorkerPool.working_workers (_p : WorkerPool) : Except PyErr Nat :=
  match pyIter (PyIterable.boundMethod : PyIterable WorkerState) with
  | Except.error e => Except.error e
  | Except.ok xs =>
      Except.ok (xs.filter (fun x =>
        decide (x ≠ WorkerState.inactive ∧ x ≠ WorkerState.disabled))).length

/-- Loop body of WorkerPool.check_timeout (source lines 343-373), iterating
the worker ids of the pool at entry while threading the mutated pool: a
worker with a running lease older than the timeout has its queue entry
reconstructed from side_data and its current job, is scheduled for
disabling, released (hence DISABLED, no semaphore release), and sent a
best-effort shut_down whose errors are swallowed. -/
def checkTimeoutGo (now timeout : Nat) : List Nat → WorkerPool → Except PyErr (List QEntry) × WorkerPool
  | [], p => (Except.ok [], p)
  | n :: rest, p =>
      match alookup n p.workers with
      | none => (Except.error PyErr.keyError, p)
      | some r =>
          match r.start_time with
          | none => checkTimeoutGo now timeout rest p
          | some t0 =>
              if now - t0 > timeout then
                match r.state with
                | WorkerState.inactive => (Except.error PyErr.assertionError, p)
                | WorkerState.disabled => (Except.error PyErr.assertionError, p)
                | WorkerState.busy job =>
                    match r.side_data with
                    | none => (Except.error PyErr.typeError, p)
                    | some pt =>
                        let p1 : WorkerPool :=
                          { p with workers := aupdate n (fun r0 =>
                              { r0 with schedule_disabling := true }) p.workers }
                        match WorkerPool.release_worker n p1 with
                        | (Except.error e, p2) => (Except.error e, p2)
                        | (Except.ok _side, p2) =>
                            match checkTimeoutGo now timeout rest p2 with
                            | (Except.error e, p3) => (Except.error e, p3)
                            | (Except.ok lost, p3) =>
                                (Except.ok ((pt.1, pt.2, job) :: lost), p3)
              else checkTimeoutGo now timeout rest p

/-- WorkerPool.check_timeout (source lines 343-373). -/
def WorkerPool.check_timeout (now timeout : Nat) (p : WorkerPool) : Except PyErr (List QEntry) × WorkerPool :=
  checkTimeoutGo now timeout (p.workers.map Prod.fst) p

/-- The dispatcher state: the queue, the pool, the bomb flag and the touched
latch (JobDispatcher.__init__, source lines 379-389). -/
structure JobDispatcher where
  queue : JobQueue
  workers : WorkerPool
  bomb_primed : Bool
  touched : Bool
  deriving DecidableEq, Repr

/-- The three action outcomes (source line 377). -/
inductive ActionResult
  | ok
  | fail
  | requeue
  deriving DecidableEq, Repr

/-- JobDispatcher.check_action (source lines 407-465). The rpcOk oracle
tells whether the outbound compile or evaluate RPC to a given worker
succeeds. A bomb primes the flag on first sight and always fails;
otherwise a worker is acquired non-blockingly with side data
(priority, timestamp), and an RPC failure bumps the error count, releases
the worker, disables it and asks for a requeue. -/
def JobDispatcher.check_action (rpcOk : Nat → Bool) (now : Nat) (priority timestamp : Nat) (job : Job) (d : JobDispatcher) : Except PyErr ActionResult × JobDispatcher :=
  if job.jobType = JobType.bomb then
    if d.bomb_primed = false then
      (Except.ok ActionResult.fail, { d with bomb_primed := true, touched := true })
    else (Except.ok ActionResult.fail, d)
  else
    match WorkerPool.acquire_worker job false (some (priority, timestamp)) now d.workers with
    | (Except.error e, p1) => (Except.error e, { d with workers := p1 })
    | (Except.ok none, p1) => (Except.ok ActionResult.fail, { d with workers := p1 })
    | (Except.ok (some w), p1) =>
        if rpcOk w then (Except.ok ActionResult.ok, { d with workers := p1 })
        else
          let p2 : WorkerPool :=
            { p1 with workers := aupdate w (fun r =>
                { r with error_count := r.error_count + 1 }) p1.workers }
          match WorkerPool.release_worker w p2 with
          | (Except.error e, p3) => (Except.error e, { d with workers := p3 })
          | (Except.ok _side, p3) =>
              match WorkerPool.disable_worker w p3 with
              | (Except.error e, p4) => (Except.error e, { d with workers := p4 })
              | (Except.ok _u, p4) => (Except.ok ActionResult.requeue, { d with workers := p4 })

/-- One iteration of the while loop of JobDispatcher.process_queue (source
lines 467-483): an empty queue finishes, ACTION_OK pops and continues,
ACTION_FAIL finishes, ACTION_REQUEUE continues with the entry left at the
head. -/
inductive LoopStep
  | finished (d : JobDispatcher)
  | again (d : JobDispatcher)
  | raised (e : PyErr) (d : JobDispatcher)
  deriving DecidableEq, Repr

def JobDispatcher.process_queue_step (rpcOk : Nat → Bool) (now : Nat) (d : JobDispatcher) : LoopStep :=
  match d.queue.entries with
  | [] => LoopStep.finished d
  | (priority, timestamp, job) :: _ =>
      match JobDispatcher.check_action rpcOk now priority timestamp job d with
      | (Except.error e, d1) => LoopStep.raised e d1
      | (Except.ok ActionResult.ok, d1) =>
          match JobQueue.pop d1.queue with
          | (Except.ok _e, q1) => LoopStep.again { d1 with queue := q1 }
          | (Except.error e, q1) => LoopStep.raised e { d1 with queue := q1 }
      | (Except.ok ActionResult.fail, d1) => LoopStep.finished d1
      | (Except.ok ActionResult.requeue, d1) => LoopStep.again d1

/-- JobDispatcher.process_queue (source lines 467-483), with fuel bounding
the number of loop iterations; none means the fuel ran out. -/
def JobDispatcher.process_queue (rpcOk : Nat → Bool) (now : Nat) : Nat → JobDispatcher → Option (Except PyErr Unit × JobDispatcher)
  | 0, _ => none
  | fuel + 1, d =>
      match JobDispatcher.process_queue_step rpcOk now d with
      | LoopStep.finished d1 => some (Except.ok (), d1)
      | LoopStep.raised e d1 => some (Except.error e, d1)
      | LoopStep.again d1 => JobDispatcher.process_queue rpcOk now fuel d1

/-- Outcome of one wake-up of JobDispatcher.run (source lines 485-495). -/
inductive RunOutcome
  | exited
  | woke (d : JobDispatcher)
  | raised (e : PyErr) (d : JobDispatcher)
  | outOfFuel
  deriving DecidableEq, Repr

/-- One wake-up of the dispatcher loop: wait on touched, clear it, then
either explode (bomb primed and no working workers) or process the queue.
The conjunction short-circuits, so working_workers is evaluated only once
the bomb is primed. -/
def JobDispatcher.run_step (rpcOk : Nat → Bool) (now fuel : Nat) (d0 : JobDispatcher) : RunOutcome :=
  let d : JobDispatcher := { d0 with touched := false }
  if d.bomb_primed then
    match WorkerPool.working_workers d.workers with
    | Except.error e => RunOutcome.raised e d
    | Except.ok k =>
        if k = 0 then RunOutcome.exited
        else
          match JobDispatcher.process_queue rpcOk now fuel d with
          | none => RunOutcome.outOfFuel
          | some (Except.ok _u, d1) => RunOutcome.woke d1
          | some (Except.error e, d1) => RunOutcome.raised e d1
  else
    match JobDispatcher.process_queue rpcOk now fuel d with
    | none => RunOutcome.outOfFuel
    | some (Except.ok _u, d1) => RunOutcome.woke d1
    | some (Except.error e, d1) => RunOutcome.raised e d1

/-- JobDispatcher.queue_push (source lines 497-500): push under the
dispatcher lock, then set touched. The timestamp argument is the resolved
default (see JobQueue.push). -/
def JobDispatcher.queue_push (job : Job) (priority : Nat) (timestamp : Nat) (d : JobDispatcher) : JobDispatcher :=
  { d with queue := JobQueue.push job priority timestamp d.queue, touched := true }

/-- JobDispatcher.queue_set_priority (source lines 502-505): set_priority
under the lock, then set touched; an exception escapes before touched is
set. -/
def JobDispatcher.queue_set_priority (job : Job) (priority : Nat) (d : JobDispatcher) : Except PyErr Unit × JobDispatcher :=
  match JobQueue.set_priority job priority d.queue with
  | (Except.error e, q1) => (Except.error e, { d with queue := q1 })
  | (Except.ok u, q1) => (Except.ok u, { d with queue := q1, touched := true })

/-- JobDispatcher.release_worker (source lines 507-511). -/
def JobDispatcher.release_worker (w : Nat) (d : JobDispatcher) : Except PyErr (Option (Nat × Nat)) × JobDispatcher :=
  match WorkerPool.release_worker w d.workers with
  | (Except.error e, p1) => (Except.error e, { d with workers := p1 })
  | (Except.ok side, p1) => (Except.ok side, { d with workers := p1, touched := true })

/-- JobDispatcher.enable_worker (source lines 521-524). -/
def JobDispatcher.enable_worker (n : Nat) (d : JobDispatcher) : Except PyErr Unit × JobDispatcher :=
  match WorkerPool.enable_worker n d.workers with
  | (Except.error e, p1) => (Except.error e, { d with workers := p1 })
  | (Except.ok u, p1) => (Except.ok u, { d with workers := p1, touched := true })

/-- JobDispatcher.add_worker (source lines 526-529). -/
def JobDispatcher.add_worker (n : Nat) (host : String) (port : Nat) (d : JobDispatcher) : Except PyErr Unit × JobDispatcher :=
  match WorkerPool.add_worker n host port d.workers with
  | (Except.error e, p1) => (Except.error e, { d with workers := p1 })
  | (Except.ok u, p1) => (Except.ok u, { d with workers := p1, touched := true })

/-- JobDispatcher.del_worker (source lines 531-534): the delegation happens
under the lock but, unlike every other auxiliary operation, no touched.set
follows. -/
def JobDispatcher.del_worker (n : Nat) (d : JobDispatcher) : Except PyErr Unit × JobDispatcher :=
  match WorkerPool.del_worker n d.workers with
  | (Except.error e, p1) => (Except.error e, { d with workers := p1 })
  | (Except.ok u, p1) => (Except.ok u, { d with workers := p1 })

/-- The persisted part of a submission the handlers read and write. -/
structure Submission where
  compilation_tentatives : Nat
  evaluation_tentatives : Nat
  compilation_outcome : Option String
  evaluation_outcome : Option String
  tokened : Bool
  timestamp : Nat
  deriving DecidableEq, Repr

/-- The log lines the specified claims observe. -/
inductive LogEvent
  | maxCompilationTentatives (sid : String)
  | maxEvaluationTentatives (sid : String)
  deriving DecidableEq, Repr

/-- The Evaluation Server state: the dispatcher, the document store, the
scorer notifications and the observed log lines. -/
structure ESState where
  jd : JobDispatcher
  store : List (String × Submission)
  scorer_tokens : List String
  scorer_submissions : List String
  log : List LogEvent
  deriving DecidableEq, Repr

/-- EvaluationServer.use_token (source lines 595-613): load the submission,
notify the scorer when it is already evaluated, then bump the priority of
its evaluation job to MEDIUM. The queue_set_priority call is not guarded,
so its exceptions escape the handler. -/
def EvaluationServer.use_token (sid : String) (st : ESState) : Except PyErr Bool × ESState :=
  match alookup sid st.store with
  | none => (Except.error PyErr.lookupError, st)
  | some s =>
      let st1 : ESState :=
        if s.evaluation_outcome ≠ none then
          { st with scorer_tokens := sid :: st.scorer_tokens }
        else st
      match JobDispatcher.queue_set_priority (Job.mk JobType.evaluate (some sid)) JOB_PRIORITY_MEDIUM st1.jd with
      | (Except.error e, jd1) => (Except.error e, { st1 with jd := jd1 })
      | (Except.ok _u, jd1) => (Except.ok true, { st1 with jd := jd1 })

/-- EvaluationServer.action_finished (source lines 623-634): find the worker
busy on the job, read its start time for the log line, and release it
through the dispatcher, returning the side data. -/
def EvaluationServer.action_finished (job : Job) (st : ESState) : Except PyErr (Option (Nat × Nat)) × ESState :=
  match WorkerPool.find_worker (WorkerState.busy job) st.jd.workers with
  | Except.error e => (Except.error e, st)
  | Except.ok w =>
      match alookup w st.jd.workers.workers with
      | none => (Except.error PyErr.keyError, st)
      | some r =>
          match r.start_time with
          | none => (Except.error PyErr.typeError, st)
          | some _t0 =>
              match JobDispatcher.release_worker w st.jd with
              | (Except.error e, jd1) => (Except.error e, { st with jd := jd1 })
              | (Except.ok side, jd1) => (Except.ok side, { st with jd := jd1 })

/-- EvaluationServer.compilation_finished (source lines 636-678): load the
submission, increment its compilation tentatives and save (the
conflict-free execution of the optimistic retry loop), release the worker
via action_finished, then either queue the evaluation (LOW, or MEDIUM when
tokened), stop on a rejected submission, or requeue the compilation at HIGH
unless the tentatives exceed the maximum, in which case only the
maximum-tentatives line is logged. -/
def EvaluationServer.compilation_finished (success : Bool) (sid : String) (st : ESState) : Except PyErr Bool × ESState :=
  match alookup sid st.store with
  | none => (Except.error PyErr.lookupError, st)
  | some s =>
      let s1 : Submission := { s with compilation_tentatives := s.compilation_tentatives + 1 }
      let st1 : ESState := { st with store := aset sid s1 st.store }
      match EvaluationServer.action_finished (Job.mk JobType.compile (some sid)) st1 with
      | (Except.error e, st2) => (Except.error e, st2)
      | (Except.ok _side, st2) =>
          if success && (s1.compilation_outcome == some "ok") then
            let priority : Nat := if s1.tokened then JOB_PRIORITY_MEDIUM else JOB_PRIORITY_LOW
            (Except.ok true,
             { st2 with jd := JobDispatcher.queue_push (Job.mk JobType.evaluate (some sid)) priority s1.timestamp st2.jd })
          else if success && (s1.compilation_outcome == some "fail") then
            (Except.ok true, st2)
          else
            if s1.compilation_tentatives > MAX_COMPILATION_TENTATIVES then
              (Except.ok true, { st2 with log := LogEvent.maxCompilationTentatives sid :: st2.log })
            else
              (Except.ok true,
               { st2 with jd := JobDispatcher.queue_push (Job.mk JobType.compile (some sid)) JOB_PRIORITY_HIGH s1.timestamp st2.jd })

/-- EvaluationServer.evaluation_finished (source lines 680-712): symmetric
to compilation_finished, but the requeue priority is component 0 of the
side data returned by action_finished (TypeError when that is None), and a
success notifies the scorer. -/
def EvaluationServer.evaluation_finished (success : Bool) (sid : String) (st : ESState) : Except PyErr Bool × ESState :=
  match alookup sid st.store with
  | none => (Except.error PyErr.lookupError, st)
  | some s =>
      let s1 : Submission := { s with evaluation_tentatives := s.evaluation_tentatives + 1 }
      let st1 : ESState := { st with store := aset sid s1 st.store }
      match EvaluationServer.action_finished (Job.mk JobType.evaluate (some sid)) st1 with
      | (Except.error e, st2) => (Except.error e, st2)
      | (Except.ok side, st2) =>
          match side with
          | none => (Except.error PyErr.typeError, st2)
          | some pt =>
              if success then
                (Except.ok true, { st2 with scorer_submissions := sid :: st2.scorer_submissions })
              else
                if s1.evaluation_tentatives > MAX_EVALUATION_TENTATIVES then
                  (Except.ok true, { st2 with log := LogEvent.maxEvaluationTentatives sid :: st2.log })
                else
                  (Except.ok true,
                   { st2 with jd := JobDispatcher.queue_push (Job.mk JobType.evaluate (some sid)) pt.1 s1.timestamp st2.jd })

/-- A worker lease is overdue when its start time exists and lies more than
timeout in the past. -/
def overdueB (now timeout : Nat) (r : WorkerRec) : Bool :=
  match r.start_time with
  | none => false
  | some t0 => decide (now - t0 > timeout)

/-- The record of a worker after the supervisor has timed it out: disabled,
with the lease fields cleared and the disabling no longer scheduled. -/
def timedOutF (r : WorkerRec) : WorkerRec :=
  { r with state := WorkerState.disabled,
           start_time := none,
           side_data := none,
           schedule_disabling := false }

/-- The queue entry reconstructed for a busy worker from its side data and
current job. -/
def lostOf (r : WorkerRec) : Option QEntry :=
  match r.state, r.side_data with
  | WorkerState.busy j, some pt => some (pt.1, pt.2, j)
  | _, _ => none

/-- Lost entries collected by the supervisor along a given id list. -/
def specLostK (now timeout : Nat) (ks : List Nat) (l : List (Nat × WorkerRec)) : List QEntry :=
  ks.filterMap (fun n =>
    (alookup n l).bind (fun r => if overdueB now timeout r then lostOf r else none))

/-- The worker table after the supervisor has visited a given id list. -/
def specPoolK (now timeout : Nat) (ks : List Nat) (l : List (Nat × WorkerRec)) : List (Nat × WorkerRec) :=
  l.map (fun nr =>
    if nr.1 ∈ ks ∧ overdueB now timeout nr.2 = true then (nr.1, timedOutF nr.2) else nr)

/-- Lost entries of a full supervisor pass, one per overdue worker, in table
order. -/
def specLost (now timeout : Nat) (l : List (Nat × WorkerRec)) : List QEntry :=
  l.filterMap (fun nr => if overdueB now timeout nr.2 then lostOf nr.2 else none)

/-- The worker table after a full supervisor pass: every overdue worker is
disabled with its lease cleared, every other worker untouched. -/
def specPool (now timeout : Nat) (l : List (Nat × WorkerRec)) : List (Nat × WorkerRec) :=
  l.map (fun nr => if overdueB now timeout nr.2 then (nr.1, timedOutF nr.2) else nr)

/-- The WorkerPool invariant of spec section 3: the availability semaphore
counts the INACTIVE workers. -/
def countInactive (l : List (Nat × WorkerRec)) : Nat :=
  (l.filter (fun nr => decide (nr.2.state = WorkerState.inactive))).length

def semInv (p : WorkerPool) : Bool := p.semaphore == countInactive p.workers

/-- An RPC oracle under which every worker answers. -/
def allRpcOk : Nat → Bool := fun _ => true

/-- Advance the state by letting the dispatcher drain its queue, keeping the
old state when the loop does not finish cleanly; used to build concrete
execution traces. -/
def afterDispatch (rpcOk : Nat → Bool) (now fuel : Nat) (st : ESState) : ESState :=
  match JobDispatcher.process_queue rpcOk now fuel st.jd with
  | some (Except.ok _u, jd1) => { st with jd := jd1 }
  | _ => st

/-- A worker record busy on the compilation of submission s1, leased at time
10 with side data (HIGH, 100). -/
def busyCompileRec : WorkerRec :=
  { state := WorkerState.busy (Job.mk JobType.compile (some "s1")),
    start_time := some 10,
    address := ("h", 1),
    error_count := 0,
    side_data := some (1, 100),
    schedule_disabling := false }

/-- A worker record busy on the evaluation of submission s1, leased at time
10 with side data (MEDIUM, 100). -/
def busyEvalRec : WorkerRec :=
  { state := WorkerState.busy (Job.mk JobType.evaluate (some "s1")),
    start_time := some 10,
    address := ("h", 1),
    error_count := 0,
    side_data := some (2, 100),
    schedule_disabling := false }

/-- An idle worker record. -/
def idleRec : WorkerRec :=
  { state := WorkerState.inactive,
    start_time := none,
    address := ("h", 2),
    error_count := 0,
    side_data := none,
    schedule_disabling := false }

/-- A submission that has not been compiled yet. -/
def freshSub : Submission :=
  { compilation_tentatives := 0,
    evaluation_tentatives := 0,
    compilation_outcome := none,
    evaluation_outcome := none,
    tokened := false,
    timestamp := 100 }

/-- Retry-exhaustion scenario of spec section 8: one worker busy compiling
s1, empty queue, fresh submission. -/
def c1St0 : ESState :=
  { jd := { queue := { entries := [], semaphore := 0 },
            workers := { workers := [(0, busyCompileRec)], semaphore := 0 },
            bomb_primed := false,
            touched := false },
    store := [("s1", freshSub)],
    scorer_tokens := [],
    scorer_submissions := [],
    log := [] }

/-- State after the first failed compilation report and redispatch. -/
def c1St1 : ESState :=
  afterDispatch allRpcOk 60 3 (EvaluationServer.compilation_finished false "s1" c1St0).2

/-- State after the second failed compilation report and redispatch. -/
def c1St2 : ESState :=
  afterDispatch allRpcOk 70 3 (EvaluationServer.compilation_finished false "s1" c1St1).2

/-- The result of the third successive failed compilation report. -/
def c1Third : Except PyErr Bool × ESState :=
  EvaluationServer.compilation_finished false "s1" c1St2

/-- Witness state for the amended retry bound: the compilation of s1 has
already been attempted three times. -/
def c1WSt : ESState :=
  { c1St0 with store := [("s1", { freshSub with compilation_tentatives := 3 })] }

/-- Witness state for the evaluation retry path: one worker busy evaluating
s1, empty queue, fresh submission. -/
def c1WEvalSt : ESState :=
  { c1St0 with jd := { c1St0.jd with
      workers := { workers := [(0, busyEvalRec)], semaphore := 0 } } }

/-- Queue holding the evaluation of s1 at LOW, timestamp 100. -/
def c2Queue : JobQueue :=
  { entries := [(3, 100, Job.mk JobType.evaluate (some "s1"))], semaphore := 1 }

def c2Job : Job := Job.mk JobType.evaluate (some "s1")

/-- State for the token scenario: s1 already evaluated, no evaluation job in
the queue. -/
def c3St : ESState :=
  { jd := { queue := { entries := [], semaphore := 0 },
            workers := { workers := [], semaphore := 0 },
            bomb_primed := false,
            touched := false },
    store := [("s1", { freshSub with compilation_outcome := some "ok",
                                     evaluation_outcome := some "1.0" })],
    scorer_tokens := [],
    scorer_submissions := [],
    log := [] }

/-- Dispatcher with the bomb primed at the queue head and one busy worker. -/
def c4Jd : JobDispatcher :=
  { queue := { entries := [(0, 50, Job.mk JobType.bomb none)], semaphore := 1 },
    workers := { workers := [(0, busyCompileRec)], semaphore := 0 },
    bomb_primed := true,
    touched := true }

/-- Pool for the timeout scenario: worker 0 busy and overdue, worker 1 idle.
-/
def c5Pool : WorkerPool :=
  { workers := [(0, busyCompileRec), (1, idleRec)], semaphore := 1 }

/-- Dispatcher for the failed-dispatch scenario: a compile job queued, one
idle worker. -/
def c6Jd : JobDispatcher :=
  { queue := { entries := [(1, 100, Job.mk JobType.compile (some "s1"))], semaphore := 1 },
    workers := { workers := [(0, idleRec)], semaphore := 1 },
    bomb_primed := false,
    touched := false }

/-- An RPC oracle under which no worker answers. -/
def noRpcOk : Nat → Bool := fun _ => false

/-- Pool with a single inactive worker, satisfying the semaphore invariant.
-/
def c7Pool : WorkerPool :=
  { workers := [(0, idleRec)], semaphore := 1 }

/-- Pool with a single busy worker. -/
def c8Pool : WorkerPool :=
  { workers := [(0, busyCompileRec)], semaphore := 0 }

/-- Dispatcher with one disabled worker and the touched latch clear. -/
def c9Jd : JobDispatcher :=
  { queue := { entries := [], semaphore := 0 },
    workers := { workers := [(0, { idleRec with state := WorkerState.disabled })], semaphore := 0 },
    bomb_primed := false,
    touched := false }

/-- State for the lost-completion scenario: s1 exists but no worker is busy
on any job. -/
def c10St : ESState :=
  { jd := { queue := { entries := [], semaphore := 0 },
            workers := { workers := [(0, idleRec)], semaphore := 1 },
            bomb_primed := false,
            touched := false },
    store := [("s1", freshSub)],
    scorer_tokens := [],
    scorer_submissions := [],
    log := [] }

/-- The record of a worker after its dispatch RPC raised: error count
bumped, then released to INACTIVE, then disabled. The scheduled-disabling
flag is untouched along this path. -/
def failedDispatchF (b : WorkerRec) : WorkerRec :=
  { b with state := WorkerState.disabled,
           start_time := none,
           side_data := none,
           error_count := b.error_count + 1 }

/-- The dispatcher after a failed dispatch RPC to worker w: that worker
disabled with its error count bumped, the semaphore back down by the one
permit the acquisition took, and everything else (the queue in particular)
untouched. -/
def failedDispatchD (w : Nat) (d : JobDispatcher) : JobDispatcher :=
  { d with workers :=
    { workers := aupdate w failedDispatchF d.workers.workers,
      semaphore := d.workers.semaphore - 1 } }

/-! Association-list facts used by the general theorems. -/

theorem alookup_mem {α β : Type} [DecidableEq α] {k : α} {b : β} {l : List (α × β)}
    (h : alookup k l = some b) : (k, b) ∈ l := by
  induction l with
  | nil => simp [alookup] at h
  | cons kv rest ih =>
      obtain ⟨a, c⟩ := kv
      rw [alookup] at h
      by_cases hk : a = k
      · subst hk
        simp at h
        subst h
        exact List.mem_cons_self _ _
      · simp only [hk, if_false] at h
        exact List.mem_cons_of_mem _ (ih h)

theorem mem_keys_exists {α β : Type} [DecidableEq α] {k : α} {l : List (α × β)}
    (h : k ∈ l.map Prod.fst) : ∃ b, alookup k l = some b := by
  induction l with
  | nil => simp at h
  | cons kv rest ih =>
      by_cases hk : kv.1 = k
      · exact ⟨kv.2, by simp [alookup, hk]⟩
      · have hr : k ∈ rest.map Prod.fst := by
          simp only [List.map_cons, List.mem_cons] at h
          rcases h with h | h
          · exact absurd h.symm hk
          · exact h
        obtain ⟨b, hb⟩ := ih hr
        exact ⟨b, by simp [alookup, hk, hb]⟩

theorem alookup_nodup_mem {α β : Type} [DecidableEq α] {k : α} {b : β} {l : List (α × β)}
    (hnd : (l.map Prod.fst).Nodup) (hmem : (k, b) ∈ l) : alookup k l = some b := by
  induction l with
  | nil => simp at hmem
  | cons kv rest ih =>
      simp only [List.map_cons, List.nodup_cons] at hnd
      rcases List.mem_cons.mp hmem with h | h
      · rw [← h]
        simp [alookup]
      · have hk : k ∈ rest.map Prod.fst := List.mem_map_of_mem Prod.fst h
        have hne : kv.1 ≠ k := fun he => hnd.1 (he ▸ hk)
        simp [alookup, hne, ih hnd.2 h]

theorem alookup_aupdate_self {α β : Type} [DecidableEq α] (k : α) (f : β → β) (l : List (α × β)) :
    alookup k (aupdate k f l) = (alookup k l).map f := by
  induction l with
  | nil => simp [alookup, aupdate]
  | cons kv rest ih =>
      by_cases hk : kv.1 = k
      · simp [alookup, aupdate, hk]
      · simp [alookup, aupdate, hk, ih]

theorem alookup_aupdate_ne {α β : Type} [DecidableEq α] {m k : α} (h : m ≠ k) (f : β → β) (l : List (α × β)) :
    alookup m (aupdate k f l) = alookup m l := by
  induction l with
  | nil => simp [aupdate]
  | cons kv rest ih =>
      by_cases hk : kv.1 = k
      · have : kv.1 ≠ m := fun he => h (he ▸ hk)
        simp [alookup, aupdate, hk, this, Ne.symm h, ih]
      · by_cases hm : kv.1 = m
        · simp [alookup, aupdate, hk, hm, h]
        · simp [alookup, aupdate, hk, hm, ih]

theorem aupdate_keys {α β : Type} [DecidableEq α] (k : α) (f : β → β) (l : List (α × β)) :
    (aupdate k f l).map Prod.fst = l.map Prod.fst := by
  induction l with
  | nil => simp [aupdate]
  | cons kv rest ih =>
      by_cases hk : kv.1 = k
      · simp [aupdate, hk, ih]
      · simp [aupdate, hk, ih]

theorem aupdate_aupdate {α β : Type} [DecidableEq α] (k : α) (f g : β → β) (l : List (α × β)) :
    aupdate k f (aupdate k g l) = aupdate k (fun b => f (g b)) l := by
  induction l with
  | nil => simp [aupdate]
  | cons kv rest ih =>
      by_cases hk : kv.1 = k
      · simp [aupdate, hk, ih]
      · simp [aupdate, hk, ih]

theorem aupdate_congr {α β : Type} [DecidableEq α] {k : α} {f g : β → β}
    (h : ∀ b, f b = g b) (l : List (α × β)) : aupdate k f l = aupdate k g l := by
  induction l with
  | nil => rfl
  | cons kv rest ih => by_cases hk : kv.1 = k <;> simp [aupdate, hk, h, ih]

theorem aupdate_not_mem {α β : Type} [DecidableEq α] {k : α} (f : β → β) {l : List (α × β)}
    (h : k ∉ l.map Prod.fst) : aupdate k f l = l := by
  induction l with
  | nil => rfl
  | cons kv rest ih =>
      simp only [List.map_cons, List.mem_cons, not_or] at h
      have hk : kv.1 ≠ k := fun he => h.1 he.symm
      simp [aupdate, hk, ih h.2]

theorem mem_aupdate {α β : Type} [DecidableEq α] {k : α} {f : β → β} {l : List (α × β)} {kv : α × β}
    (h : kv ∈ aupdate k f l) : kv ∈ l ∨ ∃ b, (k, b) ∈ l ∧ kv = (k, f b) := by
  induction l with
  | nil => simp [aupdate] at h
  | cons hv rest ih =>
      rw [aupdate] at h
      rcases List.mem_cons.mp h with h0 | h0
      · by_cases hk : hv.1 = k
        · right
          refine ⟨hv.2, ?_, ?_⟩
          · have : hv = (k, hv.2) := by rw [← hk]
            exact this ▸ List.mem_cons_self _ _
          · rw [h0, if_pos hk, hk]
        · left
          rw [if_neg hk] at h0
          exact h0 ▸ List.mem_cons_self _ _
      · rcases ih h0 with h1 | ⟨b, hb, he⟩
        · exact Or.inl (List.mem_cons_of_mem _ h1)
        · exact Or.inr ⟨b, List.mem_cons_of_mem _ hb, he⟩

theorem alookup_aset_self {α β : Type} [DecidableEq α] (k : α) (v : β) (l : List (α × β)) :
    alookup k (aset k v l) = some v := by
  induction l with
  | nil => simp [alookup, aset]
  | cons kv rest ih =>
      by_cases hk : kv.1 = k
      · simp [alookup, aset, hk]
      · simp [alookup, aset, hk, ih]

theorem map_congr_mem {α β : Type} {l : List α} {f g : α → β}
    (h : ∀ a ∈ l, f a = g a) : l.map f = l.map g := by
  induction l with
  | nil => rfl
  | cons x xs ih =>
      simp only [List.map_cons]
      rw [h x (List.mem_cons_self x xs), ih (fun a ha => h a (List.mem_cons_of_mem x ha))]

theorem filterMap_congr_mem {α β : Type} {l : List α} {f g : α → Option β}
    (h : ∀ a ∈ l, f a = g a) : l.filterMap f = l.filterMap g := by
  induction l with
  | nil => rfl
  | cons x xs ih =>
      simp only [List.filterMap_cons]
      rw [h x (List.mem_cons_self x xs), ih (fun a ha => h a (List.mem_cons_of_mem x ha))]

theorem findWorker_mem {l : List (Nat × WorkerRec)} {target : WorkerState} {n : Nat}
    (h : findWorker l target = some n) : ∃ r, (n, r) ∈ l ∧ r.state = target := by
  induction l with
  | nil => simp [findWorker] at h
  | cons kv rest ih =>
      rw [findWorker] at h
      by_cases hs : kv.2.state = target
      · rw [if_pos hs] at h
        refine ⟨kv.2, ?_, hs⟩
        have : kv = (n, kv.2) := by
          cases h
          rfl
        exact this ▸ List.mem_cons_self _ _
      · rw [if_neg hs] at h
        obtain ⟨r, hr, ht⟩ := ih h
        exact ⟨r, List.mem_cons_of_mem _ hr, ht⟩

/-! Facts about the supervisor specification functions. -/

theorem specLostK_cons_skip (now timeout : Nat) {n : Nat} (rest : List Nat)
    {l : List (Nat × WorkerRec)} {r : WorkerRec}
    (hr : alookup n l = some r) (hov : overdueB now timeout r = false) :
    specLostK now timeout (n :: rest) l = specLostK now timeout rest l := by
  simp [specLostK, List.filterMap_cons, hr, hov]

theorem specLostK_aupdate_ne (now timeout : Nat) {n : Nat} {rest : List Nat}
    (hn : n ∉ rest) (f : WorkerRec → WorkerRec) (l : List (Nat × WorkerRec)) :
    specLostK now timeout rest (aupdate n f l) = specLostK now timeout rest l := by
  apply filterMap_congr_mem
  intro m hm
  have hne : m ≠ n := by
    intro he
    subst he
    exact hn hm
  rw [alookup_aupdate_ne hne f l]

theorem specPoolK_cons_skip (now timeout : Nat) {n : Nat} (rest : List Nat)
    {l : List (Nat × WorkerRec)} {r : WorkerRec}
    (hnd : (l.map Prod.fst).Nodup)
    (hr : alookup n l = some r) (hov : overdueB now timeout r = false) :
    specPoolK now timeout (n :: rest) l = specPoolK now timeout rest l := by
  simp only [specPoolK]
  apply map_congr_mem
  intro kv hkv
  by_cases hk : kv.1 = n
  · have hkv2 : kv.2 = r := by
      have hm : (n, kv.2) ∈ l := by
        have he : kv = (n, kv.2) := by rw [← hk]
        exact he ▸ hkv
      have := alookup_nodup_mem hnd hm
      rw [hr] at this
      exact (Option.some.inj this).symm
    simp [hkv2, hov]
  · simp [List.mem_cons, hk]

theorem specPoolK_cons_notkey (now timeout : Nat) {n : Nat} (rest : List Nat)
    {l : List (Nat × WorkerRec)} (h : n ∉ l.map Prod.fst) :
    specPoolK now timeout (n :: rest) l = specPoolK now timeout rest l := by
  simp only [specPoolK]
  apply map_congr_mem
  intro kv hkv
  have hk : kv.1 ≠ n := fun he => h (he ▸ List.mem_map_of_mem Prod.fst hkv)
  simp [List.mem_cons, hk]

theorem specPoolK_cons_overdue (now timeout : Nat) {n : Nat} (rest : List Nat) :
    ∀ {l : List (Nat × WorkerRec)} {r : WorkerRec},
    (l.map Prod.fst).Nodup →
    alookup n l = some r →
    overdueB now timeout r = true →
    n ∉ rest →
    specPoolK now timeout rest (aupdate n timedOutF l) = specPoolK now timeout (n :: rest) l := by
  intro l
  induction l with
  | nil =>
      intro r _ hr
      simp [alookup] at hr
  | cons kv tail ih =>
      intro r hnd hr hov hn
      simp only [List.map_cons, List.nodup_cons] at hnd
      by_cases hk : kv.1 = n
      · have hkv2 : kv.2 = r := by
          rw [alookup, if_pos hk] at hr
          exact Option.some.inj hr
        have htail : n ∉ tail.map Prod.fst := hk ▸ hnd.1
        rw [aupdate, if_pos hk, aupdate_not_mem _ htail]
        simp only [specPoolK, List.map_cons]
        congr 1
        · simp [hk, hkv2, hov, hn]
        · apply map_congr_mem
          intro kw hkw
          have hne : kw.1 ≠ n := fun he => htail (he ▸ List.mem_map_of_mem Prod.fst hkw)
          simp [List.mem_cons, hne]
      · have hr2 : alookup n tail = some r := by
          rw [alookup, if_neg hk] at hr
          exact hr
        rw [aupdate, if_neg hk]
        simp only [specPoolK, List.map_cons]
        congr 1
        · simp [List.mem_cons, hk]
        · exact ih hnd.2 hr2 hov hn

theorem specPoolK_keys (now timeout : Nat) (l : List (Nat × WorkerRec)) :
    specPoolK now timeout (l.map Prod.fst) l = specPool now timeout l := by
  simp only [specPoolK, specPool]
  apply map_congr_mem
  intro kv hkv
  have hm : kv.1 ∈ l.map Prod.fst := List.mem_map_of_mem Prod.fst hkv
  simp [hm]

theorem specLostK_cons_eval (now timeout : Nat) {n : Nat} {rest : List Nat}
    {l : List (Nat × WorkerRec)} {r : WorkerRec} (hr : alookup n l = some r) :
    specLostK now timeout (n :: rest) l =
      match (if overdueB now timeout r then lostOf r else none) with
      | none => specLostK now timeout rest l
      | some e => e :: specLostK now timeout rest l := by
  simp only [specLostK, List.filterMap_cons, hr, Option.some_bind]
  cases hx : (if overdueB now timeout r = true then lostOf r else none) <;> simp [hx]

theorem specLostK_keys (now timeout : Nat) :
    ∀ (l : List (Nat × WorkerRec)), (l.map Prod.fst).Nodup →
    specLostK now timeout (l.map Prod.fst) l = specLost now timeout l := by
  intro l
  induction l with
  | nil => intro _; rfl
  | cons kv tail ih =>
      intro hnd
      simp only [List.map_cons, List.nodup_cons] at hnd
      have hhead : alookup kv.1 (kv :: tail) = some kv.2 := by simp [alookup]
      have htails : specLostK now timeout (tail.map Prod.fst) (kv :: tail)
          = specLost now timeout tail := by
        rw [← ih hnd.2]
        apply filterMap_congr_mem
        intro m hm
        have hne : kv.1 ≠ m := fun he => hnd.1 (he ▸ hm)
        rw [alookup, if_neg hne]
      rw [List.map_cons, specLostK_cons_eval now timeout hhead, htails]
      simp only [specLost, List.filterMap_cons]
      cases hx : (if overdueB now timeout kv.2 = true then lostOf kv.2 else none) <;> simp [hx]

/-! Branch lemmas for release_worker, shared by the dispatcher and
supervisor proofs. -/

theorem release_worker_sched (n : Nat) (p : WorkerPool) (r : WorkerRec) (j : Job)
    (hr : alookup n p.workers = some r) (hstate : r.state = WorkerState.busy j)
    (hsched : r.schedule_disabling = true) :
    WorkerPool.release_worker n p =
      (Except.ok r.side_data,
       { p with workers := aupdate n (fun r0 =>
           { r0 with state := WorkerState.disabled, start_time := none,
                     side_data := none, schedule_disabling := false }) p.workers }) := by
  simp [WorkerPool.release_worker, hr, hstate, hsched]

theorem release_worker_unsched (n : Nat) (p : WorkerPool) (r : WorkerRec) (j : Job)
    (hr : alookup n p.workers = some r) (hstate : r.state = WorkerState.busy j)
    (hsched : r.schedule_disabling = false) :
    WorkerPool.release_worker n p =
      (Except.ok r.side_data,
       { workers := aupdate n (fun r0 =>
           { r0 with state := WorkerState.inactive, start_time := none,
                     side_data := none }) p.workers,
         semaphore := p.semaphore + 1 }) := by
  simp [WorkerPool.release_worker, hr, hstate, hsched]

/-- The supervisor loop, fully characterised: along any duplicate-free list
of known worker ids, in a pool whose leased workers are busy and carry side
data, it returns exactly the reconstructed entries of the overdue workers
and disables them, leaving the semaphore and all other workers untouched. -/
theorem checkTimeoutGo_spec (now timeout : Nat) (ks : List Nat) :
    ∀ (p : WorkerPool),
      (p.workers.map Prod.fst).Nodup →
      ks.Nodup →
      (∀ n ∈ ks, n ∈ p.workers.map Prod.fst) →
      (∀ nr ∈ p.workers, nr.2.start_time ≠ none →
         (nr.2.state ≠ WorkerState.inactive ∧ nr.2.state ≠ WorkerState.disabled) ∧
         nr.2.side_data ≠ none) →
      checkTimeoutGo now timeout ks p =
        (Except.ok (specLostK now timeout ks p.workers),
         { p with workers := specPoolK now timeout ks p.workers }) := by
  induction ks with
  | nil =>
      intro p _ _ _ _
      simp [checkTimeoutGo, specLostK, specPoolK]
  | cons n rest ih =>
      intro p hnd hknd hsub hbusy
      obtain ⟨r, hr⟩ := mem_keys_exists (hsub n (List.mem_cons_self n rest))
      have hnrest : n ∉ rest := (List.nodup_cons.mp hknd).1
      have hrestnd : rest.Nodup := (List.nodup_cons.mp hknd).2
      have hsubrest : ∀ m ∈ rest, m ∈ p.workers.map Prod.fst :=
        fun m hm => hsub m (List.mem_cons_of_mem n hm)
      cases hst : r.start_time with
      | none =>
          have hov : overdueB now timeout r = false := by simp [overdueB, hst]
          have hstep : checkTimeoutGo now timeout (n :: rest) p
              = checkTimeoutGo now timeout rest p := by
            simp only [checkTimeoutGo, hr, hst]
          rw [hstep, ih p hnd hrestnd hsubrest hbusy,
              specLostK_cons_skip now timeout rest hr hov,
              specPoolK_cons_skip now timeout rest hnd hr hov]
      | some t0 =>
          by_cases hto : now - t0 > timeout
          · have hmem : (n, r) ∈ p.workers := alookup_mem hr
            obtain ⟨⟨hs1, hs2⟩, hside⟩ := hbusy (n, r) hmem (by simp [hst])
            have hov : overdueB now timeout r = true := by simp [overdueB, hst, hto]
            cases hstate : r.state with
            | inactive => exact absurd hstate hs1
            | disabled => exact absurd hstate hs2
            | busy j =>
                cases hsd : r.side_data with
                | none => exact absurd hsd hside
                | some pt =>
                    have hlook : alookup n (aupdate n (fun r0 =>
                        { r0 with schedule_disabling := true }) p.workers)
                        = some { r with schedule_disabling := true } := by
                      rw [alookup_aupdate_self, hr]
                      rfl
                    have hrel := release_worker_sched n
                      { p with workers := aupdate n (fun r0 =>
                          { r0 with schedule_disabling := true }) p.workers }
                      { r with schedule_disabling := true } j hlook hstate rfl
                    have hupd : aupdate n (fun r0 =>
                        { r0 with state := WorkerState.disabled, start_time := none,
                                  side_data := none, schedule_disabling := false })
                          (aupdate n (fun r0 =>
                            { r0 with schedule_disabling := true }) p.workers)
                        = aupdate n timedOutF p.workers := by
                      rw [aupdate_aupdate]
                      exact aupdate_congr (fun b => rfl) p.workers
                    have hbusy2 : ∀ nr ∈ aupdate n timedOutF p.workers,
                        nr.2.start_time ≠ none →
                        (nr.2.state ≠ WorkerState.inactive ∧ nr.2.state ≠ WorkerState.disabled) ∧
                        nr.2.side_data ≠ none := by
                      intro nr hnr hstart
                      rcases mem_aupdate hnr with h0 | ⟨b, _hb, he⟩
                      · exact hbusy nr h0 hstart
                      · rw [he] at hstart
                        exact absurd rfl hstart
                    have hnd2 : ((aupdate n timedOutF p.workers).map Prod.fst).Nodup := by
                      rw [aupdate_keys]
                      exact hnd
                    have hsub2 : ∀ m ∈ rest, m ∈ (aupdate n timedOutF p.workers).map Prod.fst := by
                      intro m hm
                      rw [aupdate_keys]
                      exact hsubrest m hm
                    have hih := ih { workers := aupdate n timedOutF p.workers,
                                     semaphore := p.semaphore } hnd2 hrestnd hsub2 hbusy2
                    have hlost : lostOf r = some (pt.1, pt.2, j) := by
                      simp [lostOf, hstate, hsd]
                    have hstep : checkTimeoutGo now timeout (n :: rest) p
                        = (Except.ok ((pt.1, pt.2, j) ::
                            specLostK now timeout rest (aupdate n timedOutF p.workers)),
                           { workers := specPoolK now timeout rest (aupdate n timedOutF p.workers),
                             semaphore := p.semaphore }) := by
                      simp only [checkTimeoutGo, hr, hst, if_pos hto, hstate, hsd, hrel, hupd]
                      simp only [hupd] at hih
                      simp only [hih]
                    rw [hstep, specLostK_aupdate_ne now timeout hnrest,
                        specLostK_cons_eval now timeout hr, hov, if_pos rfl, hlost,
                        specPoolK_cons_overdue now timeout rest hnd hr hov hnrest]
          · have hov : overdueB now timeout r = false := by simp [overdueB, hst, hto]
            have hstep : checkTimeoutGo now timeout (n :: rest) p
                = checkTimeoutGo now timeout rest p := by
              simp only [checkTimeoutGo, hr, hst, if_neg hto]
            rw [hstep, ih p hnd hrestnd hsubrest hbusy,
                specLostK_cons_skip now timeout rest hr hov,
                specPoolK_cons_skip now timeout rest hnd hr hov]

/-- JobQueue.set_priority can never succeed: on an empty queue the search
loop falls through to LookupError, and on a non-empty queue the first
subscription of the list by an entry raises TypeError. The queue is
unchanged either way. -/
theorem set_priority_always_fails (job : Job) (priority : Nat) (q : JobQueue) :
    (q.entries = [] → JobQueue.set_priority job priority q = (Except.error PyErr.lookupError, q)) ∧
    (q.entries ≠ [] → JobQueue.set_priority job priority q = (Except.error PyErr.typeError, q)) := by
  constructor
  · intro h
    simp [JobQueue.set_priority, JobQueue.search, h, JobQueue.searchGo]
  · intro h
    cases he : q.entries with
    | nil => exact absurd he h
    | cons x xs =>
        simp [JobQueue.set_priority, JobQueue.search, he, JobQueue.searchGo, pyListIndex]

/-- EvaluationServer.action_finished succeeds whenever some worker is busy
on a structurally equal job and carries a start time: it returns that
worker's side data and releases it, leaving store, scorer and log alone. -/
theorem action_finished_ok (job : Job) (st : ESState) (w : Nat) (rw0 : WorkerRec) (t0 : Nat)
    (hfw : findWorker st.jd.workers.workers (WorkerState.busy job) = some w)
    (hw : alookup w st.jd.workers.workers = some rw0)
    (hstate : rw0.state = WorkerState.busy job)
    (hstart : rw0.start_time = some t0) :
    ∃ p1, EvaluationServer.action_finished job st =
      (Except.ok rw0.side_data,
       { st with jd := { st.jd with workers := p1, touched := true } }) := by
  cases hsd : rw0.schedule_disabling with
  | true =>
      have hrel := release_worker_sched w st.jd.workers rw0 job hw hstate hsd
      refine ⟨(WorkerPool.release_worker w st.jd.workers).2, ?_⟩
      simp [EvaluationServer.action_finished, WorkerPool.find_worker, hfw, hw, hstart,
            JobDispatcher.release_worker, hrel]
  | false =>
      have hrel := release_worker_unsched w st.jd.workers rw0 job hw hstate hsd
      refine ⟨(WorkerPool.release_worker w st.jd.workers).2, ?_⟩
      simp [EvaluationServer.action_finished, WorkerPool.find_worker, hfw, hw, hstart,
            JobDispatcher.release_worker, hrel]

/-- The failed-dispatch path of check_action, fully computed: when the
queue head is not a bomb, a permit is available, the first inactive worker
is w with disabling not scheduled, and the RPC to w raises, the action
returns ACTION_REQUEUE with w disabled and its error count bumped. -/
theorem check_action_rpc_failure (rpcOk : Nat → Bool) (now priority timestamp : Nat)
    (job : Job) (d : JobDispatcher) (w : Nat) (rw0 : WorkerRec)
    (hjob : job.jobType ≠ JobType.bomb)
    (hsem : d.workers.semaphore ≠ 0)
    (hfind : findWorker d.workers.workers WorkerState.inactive = some w)
    (hw : alookup w d.workers.workers = some rw0)
    (hsched : rw0.schedule_disabling = false)
    (hrpc : rpcOk w = false) :
    JobDispatcher.check_action rpcOk now priority timestamp job d =
      (Except.ok ActionResult.requeue, failedDispatchD w d) := by
  have hlook1 : alookup w (aupdate w (fun r =>
      { r with state := WorkerState.busy job, start_time := some now,
               side_data := some (priority, timestamp) }) d.workers.workers)
      = some { rw0 with state := WorkerState.busy job, start_time := some now,
                        side_data := some (priority, timestamp) } := by
    rw [alookup_aupdate_self, hw]
    rfl
  have hlook2 : alookup w (aupdate w (fun r => { r with error_count := r.error_count + 1 })
      (aupdate w (fun r =>
        { r with state := WorkerState.busy job, start_time := some now,
                 side_data := some (priority, timestamp) }) d.workers.workers))
      = some { rw0 with state := WorkerState.busy job, start_time := some now,
                        side_data := some (priority, timestamp),
                        error_count := rw0.error_count + 1 } := by
    rw [alookup_aupdate_self, hlook1]
    rfl
  have hrel := release_worker_unsched w
    { workers := aupdate w (fun r => { r with error_count := r.error_count + 1 })
        (aupdate w (fun r =>
          { r with state := WorkerState.busy job, start_time := some now,
                   side_data := some (priority, timestamp) }) d.workers.workers),
      semaphore := d.workers.semaphore - 1 }
    { rw0 with state := WorkerState.busy job, start_time := some now,
               side_data := some (priority, timestamp),
               error_count := rw0.error_count + 1 }
    job hlook2 rfl hsched
  have hlook3 : alookup w (aupdate w (fun r0 =>
      { r0 with state := WorkerState.inactive, start_time := none, side_data := none })
      (aupdate w (fun r => { r with error_count := r.error_count + 1 })
        (aupdate w (fun r =>
          { r with state := WorkerState.busy job, start_time := some now,
                   side_data := some (priority, timestamp) }) d.workers.workers)))
      = some { rw0 with state := WorkerState.inactive, start_time := none,
                        side_data := none, error_count := rw0.error_count + 1 } := by
    rw [alookup_aupdate_self, hlook2]
    rfl
  have hcomp : aupdate w (fun r0 => { r0 with state := WorkerState.disabled })
      (aupdate w (fun r0 =>
        { r0 with state := WorkerState.inactive, start_time := none, side_data := none })
        (aupdate w (fun r => { r with error_count := r.error_count + 1 })
          (aupdate w (fun r =>
            { r with state := WorkerState.busy job, start_time := some now,
                     side_data := some (priority, timestamp) }) d.workers.workers)))
      = aupdate w failedDispatchF d.workers.workers := by
    rw [aupdate_aupdate, aupdate_aupdate, aupdate_aupdate]
    exact aupdate_congr (fun b => rfl) d.workers.workers
  simp only [JobDispatcher.check_action, if_neg hjob, WorkerPool.acquire_worker,
             if_neg hsem, hfind, hrpc, Bool.false_eq_true, if_false, hrel,
             WorkerPool.disable_worker, hlook3, failedDispatchD]
  simp [hcomp, Nat.add_sub_cancel]

/-! The claims. -/

/-- C1, counterexample: starting from zero tentatives, the third successive
compilation_finished(false, s1) report does not log the maximum-tentatives
line and re-queues the compilation at HIGH (the guard is a strict
comparison checked after the increment, so tentatives reaches 3 without
exceeding MAX_COMPILATION_TENTATIVES = 3), contradicting the claimed bound
of three compilations and the claimed behaviour of the third call. -/
theorem third_failure_still_requeues :
    c1Third.1 = Except.ok true ∧
    c1Third.2.log = [] ∧
    c1Third.2.jd.queue.entries =
      [(JOB_PRIORITY_HIGH, 100, Job.mk JobType.compile (some "s1"))] ∧
    (alookup "s1" c1Third.2.store).map Submission.compilation_tentatives = some 3 :=
  ⟨rfl, rfl, rfl, rfl⟩

/-- C1 (amended): each failed completion report increments the persisted
tentatives counter and re-queues the job exactly when the incremented
counter is still at most MAX (3); the maximum-tentatives line is logged,
with no re-queue, exactly when the counter exceeds 3. Hence a submission
that fails every attempt is compiled (and symmetrically evaluated)
MAX + 1 = 4 times: the first three failure reports re-queue (compilations
at HIGH, evaluations at their side-data priority) and the fourth gives up.
-/
theorem retry_budget :
    (∀ (st : ESState) (sid : String) (s : Submission) (w : Nat) (rw0 : WorkerRec) (t0 : Nat),
      alookup sid st.store = some s →
      findWorker st.jd.workers.workers (WorkerState.busy (Job.mk JobType.compile (some sid))) = some w →
      alookup w st.jd.workers.workers = some rw0 →
      rw0.state = WorkerState.busy (Job.mk JobType.compile (some sid)) →
      rw0.start_time = some t0 →
      (EvaluationServer.compilation_finished false sid st).1 = Except.ok true ∧
      alookup sid (EvaluationServer.compilation_finished false sid st).2.store =
        some { s with compilation_tentatives := s.compilation_tentatives + 1 } ∧
      (s.compilation_tentatives + 1 > MAX_COMPILATION_TENTATIVES →
        (EvaluationServer.compilation_finished false sid st).2.jd.queue = st.jd.queue ∧
        (EvaluationServer.compilation_finished false sid st).2.log =
          LogEvent.maxCompilationTentatives sid :: st.log) ∧
      (s.compilation_tentatives + 1 ≤ MAX_COMPILATION_TENTATIVES →
        (EvaluationServer.compilation_finished false sid st).2.jd.queue =
          JobQueue.push (Job.mk JobType.compile (some sid)) JOB_PRIORITY_HIGH s.timestamp st.jd.queue ∧
        (EvaluationServer.compilation_finished false sid st).2.log = st.log)) ∧
    (∀ (st : ESState) (sid : String) (s : Submission) (w : Nat) (rw0 : WorkerRec) (t0 p0 ts0 : Nat),
      alookup sid st.store = some s →
      findWorker st.jd.workers.workers (WorkerState.busy (Job.mk JobType.evaluate (some sid))) = some w →
      alookup w st.jd.workers.workers = some rw0 →
      rw0.state = WorkerState.busy (Job.mk JobType.evaluate (some sid)) →
      rw0.start_time = some t0 →
      rw0.side_data = some (p0, ts0) →
      (EvaluationServer.evaluation_finished false sid st).1 = Except.ok true ∧
      alookup sid (EvaluationServer.evaluation_finished false sid st).2.store =
        some { s with evaluation_tentatives := s.evaluation_tentatives + 1 } ∧
      (s.evaluation_tentatives + 1 > MAX_EVALUATION_TENTATIVES →
        (EvaluationServer.evaluation_finished false sid st).2.jd.queue = st.jd.queue ∧
        (EvaluationServer.evaluation_finished false sid st).2.log =
          LogEvent.maxEvaluationTentatives sid :: st.log) ∧
      (s.evaluation_tentatives + 1 ≤ MAX_EVALUATION_TENTATIVES →
        (EvaluationServer.evaluation_finished false sid st).2.jd.queue =
          JobQueue.push (Job.mk JobType.evaluate (some sid)) p0 s.timestamp st.jd.queue ∧
        (EvaluationServer.evaluation_finished false sid st).2.log = st.log)) := by
  constructor
  · intro st sid s w rw0 t0 hs hfw hw hstate hstart
    obtain ⟨p1, haf⟩ := action_finished_ok (Job.mk JobType.compile (some sid))
      { st with store := aset sid { s with compilation_tentatives := s.compilation_tentatives + 1 } st.store }
      w rw0 t0 hfw hw hstate hstart
    by_cases ht : s.compilation_tentatives + 1 > MAX_COMPILATION_TENTATIVES
    · have hres : EvaluationServer.compilation_finished false sid st =
          (Except.ok true,
           { st with
               store := aset sid { s with compilation_tentatives := s.compilation_tentatives + 1 } st.store,
               jd := { st.jd with workers := p1, touched := true },
               log := LogEvent.maxCompilationTentatives sid :: st.log }) := by
        simp only [EvaluationServer.compilation_finished, hs, haf]
        simp [ht]
      refine ⟨by rw [hres], ?_, fun _h => ⟨by rw [hres], by rw [hres]⟩,
              fun hle => absurd ht (Nat.not_lt.mpr hle)⟩
      rw [hres]
      exact alookup_aset_self sid _ st.store
    · have hres : EvaluationServer.compilation_finished false sid st =
          (Except.ok true,
           { st with
               store := aset sid { s with compilation_tentatives := s.compilation_tentatives + 1 } st.store,
               jd := { st.jd with
                   queue := JobQueue.push (Job.mk JobType.compile (some sid))
                     JOB_PRIORITY_HIGH s.timestamp st.jd.queue,
                   workers := p1, touched := true } }) := by
        simp only [EvaluationServer.compilation_finished, hs, haf]
        simp [ht, JobDispatcher.queue_push]
      refine ⟨by rw [hres], ?_, fun hgt => absurd hgt ht,
              fun _h => ⟨by rw [hres], by rw [hres]⟩⟩
      rw [hres]
      exact alookup_aset_self sid _ st.store
  · intro st sid s w rw0 t0 p0 ts0 hs hfw hw hstate hstart hsd
    obtain ⟨p1, haf⟩ := action_finished_ok (Job.mk JobType.evaluate (some sid))
      { st with store := aset sid { s with evaluation_tentatives := s.evaluation_tentatives + 1 } st.store }
      w rw0 t0 hfw hw hstate hstart
    by_cases ht : s.evaluation_tentatives + 1 > MAX_EVALUATION_TENTATIVES
    · have hres : EvaluationServer.evaluation_finished false sid st =
          (Except.ok true,
           { st with
               store := aset sid { s with evaluation_tentatives := s.evaluation_tentatives + 1 } st.store,
               jd := { st.jd with workers := p1, touched := true },
               log := LogEvent.maxEvaluationTentatives sid :: st.log }) := by
        simp only [EvaluationServer.evaluation_finished, hs, haf, hsd]
        simp [ht]
      refine ⟨by rw [hres], ?_, fun _h => ⟨by rw [hres], by rw [hres]⟩,
              fun hle => absurd ht (Nat.not_lt.mpr hle)⟩
      rw [hres]
      exact alookup_aset_self sid _ st.store
    · have hres : EvaluationServer.evaluation_finished false sid st =
          (Except.ok true,
           { st with
               store := aset sid { s with evaluation_tentatives := s.evaluation_tentatives + 1 } st.store,
               jd := { st.jd with
                   queue := JobQueue.push (Job.mk JobType.evaluate (some sid))
                     p0 s.timestamp st.jd.queue,
                   workers := p1, touched := true } }) := by
        simp only [EvaluationServer.evaluation_finished, hs, haf, hsd]
        simp [ht, JobDispatcher.queue_push]
      refine ⟨by rw [hres], ?_, fun hgt => absurd hgt ht,
              fun _h => ⟨by rw [hres], by rw [hres]⟩⟩
      rw [hres]
      exact alookup_aset_self sid _ st.store

/-- C1, witness for the amended statement: a fourth failure report (the
counter already at 3) logs the maximum-tentatives line and leaves the
queue alone, and an evaluation failure report with the counter at 0
re-queues at the side-data priority. -/
theorem retry_budget_witness :
    (alookup "s1" c1WSt.store = some { freshSub with compilation_tentatives := 3 } ∧
      3 + 1 > MAX_COMPILATION_TENTATIVES) ∧
    (EvaluationServer.compilation_finished false "s1" c1WSt).1 = Except.ok true ∧
    (EvaluationServer.compilation_finished false "s1" c1WSt).2.jd.queue = c1WSt.jd.queue ∧
    (EvaluationServer.compilation_finished false "s1" c1WSt).2.log =
      LogEvent.maxCompilationTentatives "s1" :: c1WSt.log ∧
    (EvaluationServer.evaluation_finished false "s1" c1WEvalSt).2.jd.queue =
      JobQueue.push (Job.mk JobType.evaluate (some "s1")) 2 100 c1WEvalSt.jd.queue := by
  have h1 := retry_budget.1 c1WSt "s1" { freshSub with compilation_tentatives := 3 }
    0 busyCompileRec 10 rfl rfl rfl rfl rfl
  have h2 := retry_budget.2 c1WEvalSt "s1" freshSub 0 busyEvalRec 10 2 100
    rfl rfl rfl rfl rfl rfl
  exact ⟨⟨rfl, by decide⟩, h1.1, (h1.2.2.1 (by decide)).1, (h1.2.2.1 (by decide)).2,
    (h2.2.2.2 (by decide)).1⟩

/-- C2: set_priority never updates a priority. On the given one-entry queue
holding the searched job it raises TypeError (search subscripts the entry
list with an entry, and even past that the update line is a comparison, not
an assignment), and on an empty queue it raises LookupError; the queue,
its entries and its semaphore are unchanged in both cases. -/
theorem set_priority_never_updates :
    JobQueue.set_priority c2Job 2 c2Queue = (Except.error PyErr.typeError, c2Queue) ∧
    JobQueue.set_priority c2Job 2 { entries := [], semaphore := 0 } =
      (Except.error PyErr.lookupError, { entries := [], semaphore := 0 }) :=
  ⟨rfl, rfl⟩

/-- C3: use_token does not swallow the queue_set_priority failure. With the
submission already evaluated and no evaluation job queued, the scorer is
notified but the handler propagates LookupError and never returns true. -/
theorem use_token_error_propagates :
    (EvaluationServer.use_token "s1" c3St).1 = Except.error PyErr.lookupError ∧
    (EvaluationServer.use_token "s1" c3St).2.scorer_tokens = ["s1"] :=
  ⟨rfl, rfl⟩

/-- C4: once the bomb is primed, the run loop does not exit cleanly on the
working-workers test: evaluating the exit condition raises TypeError
(working_workers iterates the uncalled values method), here with one worker
still busy, so the dispatcher thread dies by exception instead of exiting
exactly when no worker is working. -/
theorem run_step_raises_when_primed :
    JobDispatcher.run_step allRpcOk 100 5 c4Jd =
      RunOutcome.raised PyErr.typeError { c4Jd with touched := false } :=
  rfl

/-- C5: a full supervisor pass over a well-formed pool (distinct worker
ids; leased workers busy and carrying side data) returns exactly one
reconstructed entry per overdue worker, built from that worker's side data
(priority, timestamp) and its current job, disables every overdue worker
with its lease cleared (schedule_disabling was set before the release, so
the DISABLED branch is taken), leaves the availability semaphore and every
in-time worker untouched, and swallows all shut_down errors (the pass
returns ok). -/
theorem check_timeout_spec (now timeout : Nat) (p : WorkerPool)
    (hnd : (p.workers.map Prod.fst).Nodup)
    (hbusy : ∀ nr ∈ p.workers, nr.2.start_time ≠ none →
       (nr.2.state ≠ WorkerState.inactive ∧ nr.2.state ≠ WorkerState.disabled) ∧
       nr.2.side_data ≠ none) :
    WorkerPool.check_timeout now timeout p =
      (Except.ok (specLost now timeout p.workers),
       { p with workers := specPool now timeout p.workers }) := by
  rw [WorkerPool.check_timeout,
      checkTimeoutGo_spec now timeout (p.workers.map Prod.fst) p hnd hnd (fun _m hm => hm) hbusy,
      specLostK_keys now timeout p.workers hnd, specPoolK_keys now timeout p.workers]

/-- C5, witness: worker 0 is busy and overdue, worker 1 idle; the pass
reclaims exactly the (HIGH, 100) entry of worker 0 and disables it. -/
theorem check_timeout_spec_witness :
    ((c5Pool.workers.map Prod.fst).Nodup ∧
      (∀ nr ∈ c5Pool.workers, nr.2.start_time ≠ none →
        (nr.2.state ≠ WorkerState.inactive ∧ nr.2.state ≠ WorkerState.disabled) ∧
        nr.2.side_data ≠ none)) ∧
    WorkerPool.check_timeout 100 5 c5Pool =
      (Except.ok (specLost 100 5 c5Pool.workers),
       { c5Pool with workers := specPool 100 5 c5Pool.workers }) :=
  ⟨⟨by decide, by decide⟩, check_timeout_spec 100 5 c5Pool (by decide) (by decide)⟩

/-- C6: when the queue head is a non-bomb job, a permit is available, the
first inactive worker is w (disabling not scheduled, distinct ids) and the
dispatch RPC to w raises, check_action bumps the error count of w, releases
it back to INACTIVE and then disables it, and returns ACTION_REQUEUE; the
queue (hence the head entry with its original priority and timestamp) is
untouched, process_queue continues the loop on the same head, and any later
acquisition finds a worker other than w. -/
theorem rpc_failure_requeues (rpcOk : Nat → Bool) (now priority timestamp : Nat)
    (job : Job) (d : JobDispatcher) (rest : List QEntry) (w : Nat) (rw0 : WorkerRec)
    (hq : d.queue.entries = (priority, timestamp, job) :: rest)
    (hjob : job.jobType ≠ JobType.bomb)
    (hsem : d.workers.semaphore ≠ 0)
    (hfind : findWorker d.workers.workers WorkerState.inactive = some w)
    (hw : alookup w d.workers.workers = some rw0)
    (hsched : rw0.schedule_disabling = false)
    (hnd : (d.workers.workers.map Prod.fst).Nodup)
    (hrpc : rpcOk w = false) :
    JobDispatcher.check_action rpcOk now priority timestamp job d =
      (Except.ok ActionResult.requeue, failedDispatchD w d) ∧
    (failedDispatchD w d).queue = d.queue ∧
    alookup w (failedDispatchD w d).workers.workers = some (failedDispatchF rw0) ∧
    (failedDispatchD w d).workers.semaphore = d.workers.semaphore - 1 ∧
    (∀ m, m ≠ w →
      alookup m (failedDispatchD w d).workers.workers = alookup m d.workers.workers) ∧
    JobDispatcher.process_queue_step rpcOk now d = LoopStep.again (failedDispatchD w d) ∧
    (∀ m, findWorker (failedDispatchD w d).workers.workers WorkerState.inactive = some m →
      m ≠ w) := by
  have hmain := check_action_rpc_failure rpcOk now priority timestamp job d w rw0
    hjob hsem hfind hw hsched hrpc
  have hlookF : alookup w (failedDispatchD w d).workers.workers = some (failedDispatchF rw0) := by
    simp only [failedDispatchD]
    rw [alookup_aupdate_self, hw]
    rfl
  refine ⟨hmain, rfl, hlookF, rfl, ?_, ?_, ?_⟩
  · intro m hm
    simp only [failedDispatchD]
    exact alookup_aupdate_ne hm failedDispatchF d.workers.workers
  · simp only [JobDispatcher.process_queue_step, hq, hmain]
  · intro m hfm heq
    subst heq
    obtain ⟨rr, hmem, hrs⟩ := findWorker_mem hfm
    have hnd2 : ((failedDispatchD m d).workers.workers.map Prod.fst).Nodup := by
      simp only [failedDispatchD]
      rw [aupdate_keys]
      exact hnd
    have hl := alookup_nodup_mem hnd2 hmem
    rw [hlookF] at hl
    have : rr.state = WorkerState.disabled := by
      rw [← Option.some.inj hl]
      rfl
    rw [this] at hrs
    cases hrs

/-- C6, witness: one queued compile job, one idle worker whose RPC fails;
the entry stays at the head and the worker ends disabled with one error. -/
theorem rpc_failure_requeues_witness :
    (c6Jd.queue.entries = [(1, 100, Job.mk JobType.compile (some "s1"))] ∧
      c6Jd.workers.semaphore ≠ 0 ∧ noRpcOk 0 = false) ∧
    JobDispatcher.check_action noRpcOk 60 1 100 (Job.mk JobType.compile (some "s1")) c6Jd =
      (Except.ok ActionResult.requeue, failedDispatchD 0 c6Jd) ∧
    JobDispatcher.process_queue_step noRpcOk 60 c6Jd =
      LoopStep.again (failedDispatchD 0 c6Jd) := by
  have h := rpc_failure_requeues noRpcOk 60 1 100 (Job.mk JobType.compile (some "s1"))
    c6Jd [] 0 idleRec rfl (by decide) (by decide) rfl rfl rfl (by decide) rfl
  exact ⟨⟨rfl, by decide, rfl⟩, h.1, h.2.2.2.2.2.1⟩

/-- C7: the semaphore-counts-INACTIVE invariant is not preserved by every
failing WorkerPool call: disable_worker on an unknown worker id consumes an
availability permit and then raises KeyError on the state lookup without
returning the permit, so a pool satisfying the invariant (one inactive
worker, semaphore one) leaves the call with semaphore zero, one inactive
worker, and the invariant broken. -/
theorem disable_worker_unknown_breaks_invariant :
    semInv c7Pool = true ∧
    (WorkerPool.disable_worker 99 c7Pool).1 = Except.error PyErr.keyError ∧
    semInv (WorkerPool.disable_worker 99 c7Pool).2 = false :=
  ⟨rfl, rfl, rfl⟩

/-- C8: working_workers does not return the number of busy workers; on a
pool with one busy worker it raises TypeError, because the source iterates
the values method object itself instead of calling it. -/
theorem working_workers_raises :
    WorkerPool.working_workers c8Pool = Except.error PyErr.typeError :=
  rfl

/-- C9, counterexample: del_worker succeeds on a disabled worker yet leaves
the touched latch clear, contradicting the claim that every auxiliary
operation sets touched on success. -/
theorem del_worker_leaves_touched_clear :
    (JobDispatcher.del_worker 0 c9Jd).1 = Except.ok () ∧
    (JobDispatcher.del_worker 0 c9Jd).2.touched = false :=
  ⟨rfl, rfl⟩

/-- C9 (amended): queue_push always leaves touched set; release_worker,
enable_worker and add_worker leave it set on success; queue_set_priority
would set it after the inner call returns, but that call always raises (see
the set_priority defect), so touched is in fact left unchanged; and
del_worker never sets touched, even on success. -/
theorem aux_ops_touched :
    (∀ (d : JobDispatcher) (job : Job) (priority timestamp : Nat),
      (JobDispatcher.queue_push job priority timestamp d).touched = true) ∧
    (∀ (d : JobDispatcher) (job : Job) (priority : Nat),
      (JobDispatcher.queue_set_priority job priority d).2.touched = d.touched) ∧
    (∀ (d : JobDispatcher) (w : Nat) (side : Option (Nat × Nat)) (jd1 : JobDispatcher),
      JobDispatcher.release_worker w d = (Except.ok side, jd1) → jd1.touched = true) ∧
    (∀ (d : JobDispatcher) (n : Nat) (u : Unit) (jd1 : JobDispatcher),
      JobDispatcher.enable_worker n d = (Except.ok u, jd1) → jd1.touched = true) ∧
    (∀ (d : JobDispatcher) (n : Nat) (host : String) (port : Nat) (u : Unit) (jd1 : JobDispatcher),
      JobDispatcher.add_worker n host port d = (Except.ok u, jd1) → jd1.touched = true) ∧
    (∀ (d : JobDispatcher) (n : Nat),
      (JobDispatcher.del_worker n d).2.touched = d.touched) := by
  refine ⟨fun d job priority timestamp => rfl, ?_, ?_, ?_, ?_, ?_⟩
  · intro d job priority
    by_cases he : d.queue.entries = []
    · rw [JobDispatcher.queue_set_priority,
          (set_priority_always_fails job priority d.queue).1 he]
    · rw [JobDispatcher.queue_set_priority,
          (set_priority_always_fails job priority d.queue).2 he]
  · intro d w side jd1 h
    rw [JobDispatcher.release_worker] at h
    cases hrel : WorkerPool.release_worker w d.workers with
    | mk res p1 =>
        rw [hrel] at h
        cases res with
        | error e => simp at h
        | ok s0 =>
            simp only [Prod.mk.injEq] at h
            rw [← h.2]
  · intro d n u jd1 h
    rw [JobDispatcher.enable_worker] at h
    cases hrel : WorkerPool.enable_worker n d.workers with
    | mk res p1 =>
        rw [hrel] at h
        cases res with
        | error e => simp at h
        | ok s0 =>
            simp only [Prod.mk.injEq] at h
            rw [← h.2]
  · intro d n host port u jd1 h
    rw [JobDispatcher.add_worker] at h
    cases hrel : WorkerPool.add_worker n host port d.workers with
    | mk res p1 =>
        rw [hrel] at h
        cases res with
        | error e => simp at h
        | ok s0 =>
            simp only [Prod.mk.injEq] at h
            rw [← h.2]
  · intro d n
    rw [JobDispatcher.del_worker]
    cases hrel : WorkerPool.del_worker n d.workers with
    | mk res p1 => cases res <;> rfl

/-- C9, witness for the amended statement, on concrete dispatchers: a push
sets touched, a priority change fails and leaves it clear, a successful
release, enable and add set it, and a successful delete leaves it clear. -/
theorem aux_ops_touched_witness :
    (JobDispatcher.queue_push (Job.mk JobType.compile (some "s1")) 1 100 c9Jd).touched = true ∧
    (JobDispatcher.queue_set_priority (Job.mk JobType.evaluate (some "s1")) 2 c9Jd).2.touched
      = c9Jd.touched ∧
    ((JobDispatcher.release_worker 0 c1St0.jd).2.touched = true ∧
      JobDispatcher.release_worker 0 c1St0.jd =
        (Except.ok (some (1, 100)), (JobDispatcher.release_worker 0 c1St0.jd).2)) ∧
    (JobDispatcher.enable_worker 0 c9Jd).2.touched = true ∧
    (JobDispatcher.add_worker 7 "h" 9 c9Jd).2.touched = true ∧
    (JobDispatcher.del_worker 0 c9Jd).2.touched = c9Jd.touched := by
  refine ⟨aux_ops_touched.1 c9Jd (Job.mk JobType.compile (some "s1")) 1 100,
          aux_ops_touched.2.1 c9Jd (Job.mk JobType.evaluate (some "s1")) 2,
          ⟨aux_ops_touched.2.2.1 c1St0.jd 0 (some (1, 100))
            (JobDispatcher.release_worker 0 c1St0.jd).2 rfl, rfl⟩,
          aux_ops_touched.2.2.2.1 c9Jd 0 ()
            (JobDispatcher.enable_worker 0 c9Jd).2 rfl,
          aux_ops_touched.2.2.2.2.1 c9Jd 7 "h" 9 ()
            (JobDispatcher.add_worker 7 "h" 9 c9Jd).2 rfl,
          aux_ops_touched.2.2.2.2.2 c9Jd 0⟩

/-- C10: a completion report with no worker busy on the matching job fails
with LookupError surfaced to the caller, but only after the tentatives
counter has been incremented and persisted: the store is mutated although
the call reports failure, for compilation and evaluation alike. -/
theorem finished_increments_before_failure :
    (∀ (st : ESState) (sid : String) (s : Submission) (success : Bool),
      alookup sid st.store = some s →
      findWorker st.jd.workers.workers
        (WorkerState.busy (Job.mk JobType.compile (some sid))) = none →
      (EvaluationServer.compilation_finished success sid st).1 = Except.error PyErr.lookupError ∧
      alookup sid (EvaluationServer.compilation_finished success sid st).2.store =
        some { s with compilation_tentatives := s.compilation_tentatives + 1 }) ∧
    (∀ (st : ESState) (sid : String) (s : Submission) (success : Bool),
      alookup sid st.store = some s →
      findWorker st.jd.workers.workers
        (WorkerState.busy (Job.mk JobType.evaluate (some sid))) = none →
      (EvaluationServer.evaluation_finished success sid st).1 = Except.error PyErr.lookupError ∧
      alookup sid (EvaluationServer.evaluation_finished success sid st).2.store =
        some { s with evaluation_tentatives := s.evaluation_tentatives + 1 }) := by
  constructor
  · intro st sid s success hs hfw
    have hres : EvaluationServer.compilation_finished success sid st =
        (Except.error PyErr.lookupError,
         { st with store :=
             (aset sid { s with compilation_tentatives := s.compilation_tentatives + 1 } st.store) }) := by
      simp [EvaluationServer.compilation_finished, hs,
            EvaluationServer.action_finished, WorkerPool.find_worker, hfw]
    rw [hres]
    exact ⟨rfl, alookup_aset_self sid _ st.store⟩
  · intro st sid s success hs hfw
    have hres : EvaluationServer.evaluation_finished success sid st =
        (Except.error PyErr.lookupError,
         { st with store :=
             (aset sid { s with evaluation_tentatives := s.evaluation_tentatives + 1 } st.store) }) := by
      simp [EvaluationServer.evaluation_finished, hs,
            EvaluationServer.action_finished, WorkerPool.find_worker, hfw]
    rw [hres]
    exact ⟨rfl, alookup_aset_self sid _ st.store⟩

/-- C10, witness: on a pool whose only worker is idle, both completion
reports fail with LookupError while the respective counter is persisted as
one. -/
theorem finished_increments_before_failure_witness :
    (alookup "s1" c10St.store = some freshSub ∧
      findWorker c10St.jd.workers.workers
        (WorkerState.busy (Job.mk JobType.compile (some "s1"))) = none) ∧
    (EvaluationServer.compilation_finished true "s1" c10St).1 = Except.error PyErr.lookupError ∧
    alookup "s1" (EvaluationServer.compilation_finished true "s1" c10St).2.store =
      some { freshSub with compilation_tentatives := 1 } ∧
    (EvaluationServer.evaluation_finished false "s1" c10St).1 = Except.error PyErr.lookupError ∧
    alookup "s1" (EvaluationServer.evaluation_finished false "s1" c10St).2.store =
      some { freshSub with evaluation_tentatives := 1 } := by
  have h1 := finished_increments_before_failure.1 c10St "s1" freshSub true rfl rfl
  have h2 := finished_increments_before_failure.2 c10St "s1" freshSub false rfl rfl
  exact ⟨⟨rfl, rfl⟩, h1.1, h1.2, h2.1, h2.2⟩

end CMS
